import Mathlib

/-!
Verification of the `sjb_todo` core data-management abstraction.

This file is a shallow embedding of `src/sjb/common/base.py` (the
`Item` / `ItemList` / `ItemMatcher` engine) and of the save path in
`src/sjb/cs/fileio.py`, together with theorems settling the claims of
the natural-language specification.

Modelling choices:
- Python attribute values that can be `None`, an `int`, or something
  else entirely (the `oid` slot) are modelled by the type `PyVal`;
  Python truthiness (`not x`) is modelled by `truthy`.
- Methods that mutate `self` are modelled in state-passing style: they
  return the post-state together with the returned value and an
  `Option Err` recording a raised exception.  When an exception is
  raised partway through a method, the returned post-state reflects
  exactly the mutations performed before the raise, as in Python.
- `time.time()` is modelled by an explicit `now : Nat` argument.
-/

/-- A Python value that may sit in the `_oid` attribute: `None`, an
integer, or (to model misuse) a string standing for any non-integer. -/
inductive PyVal : Type
  | vnone : PyVal
  | vint : Int → PyVal
  | vstr : String → PyVal
deriving DecidableEq, Repr

/-- Python truthiness of a `PyVal` (`bool(x)`): `None` is falsy, an
integer is truthy iff nonzero, a string is truthy iff nonempty. -/
def truthy : PyVal → Bool
  | PyVal.vnone => false
  | PyVal.vint n => decide (n ≠ 0)
  | PyVal.vstr s => decide (s ≠ "")

/-- Python `isinstance(x, int)` for a `PyVal`. -/
def is_int : PyVal → Bool
  | PyVal.vint _ => true
  | _ => false

/-- The exceptions of `src/sjb/common/base.py`, plus the built-in
Python errors the code can hit (`TypeError` from `max` on unlike
types, `KeyError` from `set.remove`). -/
inductive Err : Type
  | readOnly : Err
  | illegalState : String → String → Err
  | validation : String → Err
  | invalidID : String → String → Err
  | typeError : Err
  | keyError : Err
deriving DecidableEq, Repr

/-- An `Item` (base.py lines 40-83): the `_oid` slot plus its domain
fields, which the abstract base class never inspects and which we
collapse into one opaque `data` string. -/
structure Item : Type where
  oid : PyVal
  data : String
deriving DecidableEq, Repr

/-- The `oid` property setter (base.py lines 51-56): assigns only when
`_oid is None`, otherwise raises `ReadOnlyError`. -/
def Item.set_oid (it : Item) (value : PyVal) : Except Err Item :=
  if it.oid = PyVal.vnone then Except.ok { it with oid := value }
  else Except.error Err.readOnly

/-- Embeds `Item._validate` (base.py lines 63-74): raises `ValidationError`
when `not self._oid or not isinstance(self._oid, int)`. -/
def Item.validate_base (it : Item) : Option Err :=
  if truthy it.oid = false ∨ is_int it.oid = false then
    Option.some (Err.validation "item ID not set or set to non-integer")
  else Option.none

/-- An `ItemList` (base.py lines 98-251).  Field names drop the Python
leading underscores: `version ~ _version`, `modified ~ _modified`,
`modified_date ~ _modified_date`, `items ~ _items`,
`last_item_id ~ _last_item_id`, `oid_set ~ _oid_set`. -/
structure ItemList : Type where
  version : Option String
  modified : Bool
  modified_date : Option Nat
  items : List Item
  last_item_id : Int
  oid_set : Finset PyVal
deriving DecidableEq

/-- Embeds `ItemList.__init__` (base.py lines 101-108). -/
def ItemList.init (version : Option String) (modified_date : Option Nat) : ItemList :=
  { version := version
    modified := false
    modified_date := modified_date
    items := []
    last_item_id := 0
    oid_set := ∅ }

/-- Embeds `ItemList._mark_modified` (base.py lines 133-139) called with no
timestamp: uses the current time `now`. -/
def mark_modified (now : Nat) (l : ItemList) : ItemList :=
  { l with modified := true, modified_date := Option.some now }

/-- Embeds `max(item.oid, self._last_item_id)` (base.py line 199): defined on
an integer oid, a `TypeError` (modelled as `Option.none`) otherwise. -/
def py_max_int : PyVal → Int → Option Int
  | PyVal.vint n, last => Option.some (max n last)
  | _, _ => Option.none

/-- Embeds `ItemList.add_item` (base.py lines 167-202), state-passing: returns
the post-state, the (possibly mutated) item, and the raised exception
if any.  The two precondition checks use Python truthiness of
`item.oid`; the non-initial-load branch increments `_last_item_id`
*before* the oid assignment, so a `ReadOnlyError` raised by the setter
leaves the counter incremented but `_mark_modified` unreached. -/
def add_item (now : Nat) (l : ItemList) (item : Item) (initial_load : Bool) :
    ItemList × Item × Option Err :=
  if initial_load = true ∧ truthy item.oid = false then
    (l, item, Option.some (Err.illegalState "ItemList.add_item" "Old item missing oid!"))
  else if initial_load = false ∧ truthy item.oid = true then
    (l, item, Option.some (Err.illegalState "ItemList.add_item" "New item has oid!"))
  else if initial_load = false then
    let l1 : ItemList := { l with last_item_id := l.last_item_id + 1 }
    match Item.set_oid item (PyVal.vint l1.last_item_id) with
    | Except.error e => (l1, item, Option.some e)
    | Except.ok item1 =>
      let l2 := mark_modified now l1
      ({ l2 with oid_set := insert item1.oid l2.oid_set,
                 items := l2.items ++ [item1] },
       item1, Option.none)
  else
    if item.oid ∈ l.oid_set then
      (l, item, Option.some (Err.illegalState "ItemList.add_item" "Duplicate item ID"))
    else
      match py_max_int item.oid l.last_item_id with
      | Option.none => (l, item, Option.some Err.typeError)
      | Option.some m =>
        ({ l with last_item_id := m,
                  oid_set := insert item.oid l.oid_set,
                  items := l.items ++ [item] },
         item, Option.none)

/-- The fusion of `ItemList._get_item_index` (base.py lines 141-154)
with `self._items.pop(ind)` (line 226): scan for the first item whose
`oid` equals the given integer oid, returning it together with the
remaining items in order. -/
def extract_first : List Item → Int → Option (Item × List Item)
  | [], _ => Option.none
  | it :: rest, oid =>
    if it.oid = PyVal.vint oid then Option.some (it, rest)
    else (extract_first rest oid).map (fun p => (p.1, it :: p.2))

/-- Embeds `ItemList.remove_item` (base.py lines 215-230): locate by oid
(raising `InvalidIDError` when absent), pop the item, mark the list
modified, then `self._oid_set.remove(removed.oid)` (which raises
`KeyError` when the oid is not in the set). -/
def remove_item (now : Nat) (l : ItemList) (oid : Int) :
    ItemList × Option Item × Option Err :=
  match extract_first l.items oid with
  | Option.none =>
    (l, Option.none,
     Option.some (Err.invalidID "ItemList.get_item_index" "Item with given oid not found!"))
  | Option.some (removed, rest) =>
    let l1 : ItemList := { l with items := rest }
    let l2 := mark_modified now l1
    if removed.oid ∈ l2.oid_set then
      ({ l2 with oid_set := l2.oid_set.erase removed.oid },
       Option.some removed, Option.none)
    else
      (l2, Option.none, Option.some Err.keyError)

/-- Embeds `ItemList.query_items` (base.py lines 204-213), state-passing: the
method reads `self.items` and builds a fresh list by comprehension; it
performs no assignment, so the post-state is the input state. -/
def query_items (l : ItemList) (item_matcher : Item → Bool) :
    ItemList × List Item :=
  (l, l.items.filter item_matcher)

/-- Lists reachable from a freshly constructed empty `ItemList` by
completed (non-raising) `add_item` and `remove_item` operations. -/
inductive Reachable : ItemList → Prop
  | init (v : Option String) (md : Option Nat) : Reachable (ItemList.init v md)
  | add (l : ItemList) (now : Nat) (it : Item) (il : Bool) :
      Reachable l → (add_item now l it il).2.2 = Option.none →
      Reachable (add_item now l it il).1
  | remove (l : ItemList) (now : Nat) (oid : Int) :
      Reachable l → (remove_item now l oid).2.2 = Option.none →
      Reachable (remove_item now l oid).1

/-- An item's oid is an integer that is nonzero and at most `last`. -/
def oid_ok (last : Int) (it : Item) : Bool :=
  match it.oid with
  | PyVal.vint n => decide (n ≠ 0) && decide (n ≤ last)
  | _ => false

/-- The state invariant of an `ItemList`: every stored oid is a nonzero
integer bounded by `_last_item_id`, the stored oids are pairwise
distinct, `_oid_set` holds exactly the stored oids, and the counter is
nonnegative. -/
def ListInv (l : ItemList) : Prop :=
  (∀ it ∈ l.items, oid_ok l.last_item_id it = true) ∧
  (l.items.map Item.oid).Nodup ∧
  l.oid_set = (l.items.map Item.oid).toFinset ∧
  0 ≤ l.last_item_id

instance (l : ItemList) : Decidable (ListInv l) := by
  unfold ListInv
  infer_instance

/-! ### Case analysis of `add_item` -/

lemma add_item_new_ok (now : Nat) (l : ItemList) (x : Item)
    (h : x.oid = PyVal.vnone) :
    add_item now l x false =
      ({ version := l.version, modified := true, modified_date := Option.some now,
         items := l.items ++ [{ x with oid := PyVal.vint (l.last_item_id + 1) }],
         last_item_id := l.last_item_id + 1,
         oid_set := insert (PyVal.vint (l.last_item_id + 1)) l.oid_set },
       { x with oid := PyVal.vint (l.last_item_id + 1) }, Option.none) := by
  simp [add_item, h, truthy, Item.set_oid, mark_modified]

lemma add_item_new_readonly (now : Nat) (l : ItemList) (x : Item)
    (h : truthy x.oid = false) (h2 : x.oid ≠ PyVal.vnone) :
    add_item now l x false =
      ({ l with last_item_id := l.last_item_id + 1 }, x, Option.some Err.readOnly) := by
  simp [add_item, h, Item.set_oid, h2]

lemma add_item_new_hasoid (now : Nat) (l : ItemList) (x : Item)
    (h : truthy x.oid = true) :
    add_item now l x false =
      (l, x, Option.some (Err.illegalState "ItemList.add_item" "New item has oid!")) := by
  simp [add_item, h]

lemma add_item_load_missing (now : Nat) (l : ItemList) (x : Item)
    (h : truthy x.oid = false) :
    add_item now l x true =
      (l, x, Option.some (Err.illegalState "ItemList.add_item" "Old item missing oid!")) := by
  simp [add_item, h]

lemma add_item_load_dup (now : Nat) (l : ItemList) (x : Item)
    (h : truthy x.oid = true) (hm : x.oid ∈ l.oid_set) :
    add_item now l x true =
      (l, x, Option.some (Err.illegalState "ItemList.add_item" "Duplicate item ID")) := by
  simp [add_item, h, hm]

lemma add_item_load_ok (now : Nat) (l : ItemList) (x : Item) (n : Int)
    (h : x.oid = PyVal.vint n) (hn : n ≠ 0) (hm : x.oid ∉ l.oid_set) :
    add_item now l x true =
      ({ l with last_item_id := max n l.last_item_id,
                oid_set := insert x.oid l.oid_set,
                items := l.items ++ [x] },
       x, Option.none) := by
  rw [h] at hm
  simp [add_item, h, truthy, hn, hm, py_max_int]

lemma add_item_load_nonint (now : Nat) (l : ItemList) (x : Item) (s : String)
    (h : x.oid = PyVal.vstr s) (hs : s ≠ "") (hm : x.oid ∉ l.oid_set) :
    add_item now l x true = (l, x, Option.some Err.typeError) := by
  rw [h] at hm
  simp [add_item, h, truthy, hs, hm, py_max_int]

/-! ### Case analysis of `extract_first` and `remove_item` -/

lemma extract_first_eq_none (items : List Item) (oid : Int) :
    extract_first items oid = Option.none ↔ ∀ it ∈ items, it.oid ≠ PyVal.vint oid := by
  induction items with
  | nil => simp [extract_first]
  | cons a rest ih =>
    by_cases ha : a.oid = PyVal.vint oid
    · simp [extract_first, ha]
    · simp [extract_first, ha, Option.map_eq_none', ih]

lemma extract_first_eq_some (items : List Item) (oid : Int) (x : Item)
    (rest : List Item) (h : extract_first items oid = Option.some (x, rest)) :
    ∃ pre suf, items = pre ++ x :: suf ∧ rest = pre ++ suf ∧
      x.oid = PyVal.vint oid ∧ ∀ p ∈ pre, p.oid ≠ PyVal.vint oid := by
  induction items generalizing rest with
  | nil => simp [extract_first] at h
  | cons a tl ih =>
    by_cases ha : a.oid = PyVal.vint oid
    · have h' : a = x ∧ tl = rest := by
        simpa [extract_first, ha, Prod.ext_iff] using h
      obtain ⟨hx, hrest⟩ := h'
      subst hx
      subst hrest
      exact ⟨[], tl, rfl, rfl, ha, by simp⟩
    · rw [show extract_first (a :: tl) oid =
          (extract_first tl oid).map (fun p => (p.1, a :: p.2)) by
            simp [extract_first, ha]] at h
      rw [Option.map_eq_some'] at h
      obtain ⟨⟨x1, r1⟩, hx1, heq⟩ := h
      simp only [Prod.mk.injEq] at heq
      obtain ⟨hx, hrest⟩ := heq
      subst hx
      obtain ⟨pre, suf, h1, h2, h3, h4⟩ := ih r1 hx1
      refine ⟨a :: pre, suf, ?_, ?_, h3, ?_⟩
      · simp [h1]
      · rw [← hrest, h2]; simp
      · intro p hp
        rcases List.mem_cons.mp hp with hpa | hpp
        · rw [hpa]; exact ha
        · exact h4 p hpp

lemma remove_item_absent (now : Nat) (l : ItemList) (oid : Int)
    (h : ∀ it ∈ l.items, it.oid ≠ PyVal.vint oid) :
    remove_item now l oid =
      (l, Option.none,
       Option.some (Err.invalidID "ItemList.get_item_index" "Item with given oid not found!")) := by
  simp [remove_item, (extract_first_eq_none l.items oid).2 h]

/-! ### Preservation of the list invariant -/

lemma oid_ok_mono (it : Item) (a b : Int) (hab : a ≤ b)
    (h : oid_ok a it = true) : oid_ok b it = true := by
  unfold oid_ok at *
  cases hoid : it.oid with
  | vnone => rw [hoid] at h; simp at h
  | vint n =>
    rw [hoid] at h
    simp only [Bool.and_eq_true, decide_eq_true_eq] at h
    simp only [Bool.and_eq_true, decide_eq_true_eq]
    exact ⟨h.1, le_trans h.2 hab⟩
  | vstr s => rw [hoid] at h; simp at h

lemma oid_notin_of_gt (l : ItemList)
    (h1 : ∀ it ∈ l.items, oid_ok l.last_item_id it = true)
    (n : Int) (hn : l.last_item_id < n) :
    PyVal.vint n ∉ l.items.map Item.oid := by
  intro hmem
  obtain ⟨it, hit, hoid⟩ := List.mem_map.mp hmem
  have h := h1 it hit
  unfold oid_ok at h
  rw [hoid] at h
  simp only [Bool.and_eq_true, decide_eq_true_eq] at h
  omega

lemma listInv_init (v : Option String) (md : Option Nat) :
    ListInv (ItemList.init v md) := by
  refine ⟨?_, ?_, ?_, ?_⟩ <;> simp [ItemList.init]

lemma listInv_add (now : Nat) (l : ItemList) (x : Item) (il : Bool)
    (hinv : ListInv l) (hok : (add_item now l x il).2.2 = Option.none) :
    ListInv (add_item now l x il).1 := by
  obtain ⟨h1, h2, h3, h4⟩ := hinv
  cases il with
  | false =>
    cases hoid : x.oid with
    | vnone =>
      rw [add_item_new_ok now l x hoid]
      dsimp only
      refine ⟨?_, ?_, ?_, ?_⟩
      · intro it hit
        rcases List.mem_append.mp hit with hold | hnew
        · exact oid_ok_mono it l.last_item_id (l.last_item_id + 1) (by omega) (h1 it hold)
        · rw [List.mem_singleton.mp hnew]
          unfold oid_ok
          simp only [Bool.and_eq_true, decide_eq_true_eq]
          exact ⟨by omega, le_refl _⟩
      · simp only [List.map_append, List.map_cons, List.map_nil]
        rw [List.nodup_append]
        refine ⟨h2, List.nodup_singleton _, ?_⟩
        intro a ha hb
        rw [List.mem_singleton.mp hb] at ha
        exact oid_notin_of_gt l h1 (l.last_item_id + 1) (by omega) ha
      · ext a
        simp [h3, List.mem_append, or_comm]
      · show (0 : Int) ≤ l.last_item_id + 1
        omega
    | vint n =>
      by_cases hn : n = 0
      · rw [add_item_new_readonly now l x (by simp [truthy, hoid, hn]) (by simp [hoid])] at hok
        simp at hok
      · rw [add_item_new_hasoid now l x (by simp [truthy, hoid, hn])] at hok
        simp at hok
    | vstr s =>
      by_cases hs : s = ""
      · rw [add_item_new_readonly now l x (by simp [truthy, hoid, hs]) (by simp [hoid])] at hok
        simp at hok
      · rw [add_item_new_hasoid now l x (by simp [truthy, hoid, hs])] at hok
        simp at hok
  | true =>
    cases hoid : x.oid with
    | vnone =>
      rw [add_item_load_missing now l x (by simp [truthy, hoid])] at hok
      simp at hok
    | vint n =>
      by_cases hn : n = 0
      · rw [add_item_load_missing now l x (by simp [truthy, hoid, hn])] at hok
        simp at hok
      by_cases hm : x.oid ∈ l.oid_set
      · rw [add_item_load_dup now l x (by simp [truthy, hoid, hn]) hm] at hok
        simp at hok
      · rw [add_item_load_ok now l x n hoid hn hm]
        dsimp only
        have hnotin : PyVal.vint n ∉ l.items.map Item.oid := by
          rw [h3] at hm
          rw [hoid] at hm
          intro hc
          exact hm (List.mem_toFinset.mpr hc)
        refine ⟨?_, ?_, ?_, ?_⟩
        · intro it hit
          rcases List.mem_append.mp hit with hold | hnew
          · exact oid_ok_mono it l.last_item_id (max n l.last_item_id)
              (le_max_right _ _) (h1 it hold)
          · rw [List.mem_singleton.mp hnew]
            unfold oid_ok
            rw [hoid]
            simp only [Bool.and_eq_true, decide_eq_true_eq]
            exact ⟨hn, le_max_left _ _⟩
        · simp only [List.map_append, List.map_cons, List.map_nil]
          rw [List.nodup_append]
          refine ⟨h2, List.nodup_singleton _, ?_⟩
          intro a ha hb
          rw [List.mem_singleton.mp hb] at ha
          rw [hoid] at ha
          exact hnotin ha
        · ext a
          simp [h3, List.mem_append, or_comm]
        · exact le_trans h4 (le_max_right n l.last_item_id)
    | vstr s =>
      by_cases hs : s = ""
      · rw [add_item_load_missing now l x (by simp [truthy, hoid, hs])] at hok
        simp at hok
      by_cases hm : x.oid ∈ l.oid_set
      · rw [add_item_load_dup now l x (by simp [truthy, hoid, hs]) hm] at hok
        simp at hok
      · rw [add_item_load_nonint now l x s hoid hs hm] at hok
        simp at hok

lemma listInv_remove (now : Nat) (l : ItemList) (oid : Int)
    (hinv : ListInv l) (hok : (remove_item now l oid).2.2 = Option.none) :
    ListInv (remove_item now l oid).1 := by
  obtain ⟨h1, h2, h3, h4⟩ := hinv
  cases hex : extract_first l.items oid with
  | none =>
    unfold remove_item at hok
    rw [hex] at hok
    simp at hok
  | some p =>
    obtain ⟨x, rest⟩ := p
    obtain ⟨pre, suf, hsplit, hrest, hxoid, hpre⟩ :=
      extract_first_eq_some l.items oid x rest hex
    have hxmem : x ∈ l.items := by rw [hsplit]; simp
    have hxset : x.oid ∈ l.oid_set := by
      rw [h3]
      exact List.mem_toFinset.mpr (List.mem_map.mpr ⟨x, hxmem, rfl⟩)
    unfold remove_item
    rw [hex]
    simp only [mark_modified]
    rw [if_pos hxset]
    -- nonmembership of x.oid among the remaining oids
    have hnodup2 := h2
    rw [hsplit] at hnodup2
    simp only [List.map_append, List.map_cons] at hnodup2
    rw [List.nodup_append] at hnodup2
    obtain ⟨hnpre, hncons, hdisj⟩ := hnodup2
    have hxpre : x.oid ∉ pre.map Item.oid := fun hc => hdisj hc (List.mem_cons_self _ _)
    have hxsuf : x.oid ∉ suf.map Item.oid := (List.nodup_cons.mp hncons).1
    refine ⟨?_, ?_, ?_, ?_⟩
    · intro it hit
      have : it ∈ l.items := by
        rw [hsplit]
        rw [hrest] at hit
        rcases List.mem_append.mp hit with hp | hs
        · exact List.mem_append.mpr (Or.inl hp)
        · exact List.mem_append.mpr (Or.inr (List.mem_cons_of_mem _ hs))
      exact h1 it this
    · have hsub : rest.Sublist l.items := by
        rw [hsplit, hrest]
        exact List.Sublist.append_left (List.sublist_cons_self x suf) pre
      exact h2.sublist (hsub.map Item.oid)
    · ext a
      simp only [Finset.mem_erase, h3, List.mem_toFinset, List.mem_map]
      constructor
      · rintro ⟨hne, it, hit, hoid⟩
        refine ⟨it, ?_, hoid⟩
        rw [hrest]
        rw [hsplit] at hit
        rcases List.mem_append.mp hit with hp | hs
        · exact List.mem_append.mpr (Or.inl hp)
        · rcases List.mem_cons.mp hs with hx | hs2
          · exfalso; rw [hx] at hoid; exact hne hoid.symm
          · exact List.mem_append.mpr (Or.inr hs2)
      · rintro ⟨it, hit, hoid⟩
        constructor
        · intro hax
          rw [hrest] at hit
          rcases List.mem_append.mp hit with hp | hs
          · exact hxpre (by rw [hax] at hoid; exact List.mem_map.mpr ⟨it, hp, hoid⟩)
          · exact hxsuf (by rw [hax] at hoid; exact List.mem_map.mpr ⟨it, hs, hoid⟩)
        · refine ⟨it, ?_, hoid⟩
          rw [hsplit]
          rw [hrest] at hit
          rcases List.mem_append.mp hit with hp | hs
          · exact List.mem_append.mpr (Or.inl hp)
          · exact List.mem_append.mpr (Or.inr (List.mem_cons_of_mem _ hs))
    · exact h4

lemma listInv_of_reachable (l : ItemList) (h : Reachable l) : ListInv l := by
  induction h with
  | init v md => exact listInv_init v md
  | add l now it il hr hok ih => exact listInv_add now l it il ih hok
  | remove l now oid hr hok ih => exact listInv_remove now l oid ih hok

/-! ### Serialization (canonical form) and the save path

The concrete subclasses implementing `to_dict` / `from_dict` / `validate`
(`sjb.cs.classes`, `sjb.td.classes`) are part of this repository but are not
under `src/`; they are modelled from the specification, as marked below. -/

/-- The canonical serialized form of one item: its identity plus its domain
fields. -/
structure ItemRecord : Type where
  oid : PyVal
  data : String
deriving DecidableEq, Repr

/-- Modelled from the spec: `Item.toCanonicalForm` / `_to_dict` of the concrete
item classes (not under `src/`): "must produce a deterministic, JSON-compatible
mapping of every semantic field". -/
def Item.to_dict (it : Item) : ItemRecord :=
  { oid := it.oid, data := it.data }

/-- Modelled from the spec: reconstruction of an item from its stored record,
"using the same keys the persistence layer expects on reload". -/
def Item.from_dict (r : ItemRecord) : Item :=
  { oid := r.oid, data := r.data }

/-- The per-list JSON document schema of spec section 6: version, modification
timestamp, and the ordered item records.  `lastAssignedId` is *not* stored. -/
structure CanonicalList : Type where
  version : Option String
  modified_date : Option Nat
  items : List ItemRecord
deriving DecidableEq, Repr

/-- Modelled from the spec: `ItemList.toCanonicalForm` / `to_dict` of the
concrete list classes (not under `src/`): "must serialize version, modification
metadata, and the ordered item list (each via `Item.toCanonicalForm`)". -/
def to_canonical_form (l : ItemList) : CanonicalList :=
  { version := l.version, modified_date := l.modified_date,
    items := l.items.map Item.to_dict }

/-- The reload loop: `addItem(..., initialLoad=true)` for every stored record
in order; the first raised exception aborts the load.  The `now` argument of
`add_item` is irrelevant on this path (`_mark_modified` is never called). -/
def load_items (l : ItemList) : List ItemRecord → Except Err ItemList
  | [] => Except.ok l
  | r :: rest =>
    match add_item 0 l (Item.from_dict r) true with
    | (l1, _, Option.none) => load_items l1 rest
    | (_, _, Option.some e) => Except.error e

/-- Modelled from the spec: `fromCanonicalForm` of the concrete list classes
(not under `src/`): "deserialize symmetrically using
`addItem(..., initialLoad=true)` for every reloaded record, in the stored
order, to correctly reconstruct `lastAssignedId` and the identity set". -/
def from_canonical_form (c : CanonicalList) : Except Err ItemList :=
  load_items (ItemList.init c.version c.modified_date) c.items

/-- The counter value the reload loop rebuilds: starting from the fresh list's
0, every reloaded record folds in `max oid acc` (base.py line 199). -/
def rebuilt_last_id (items : List Item) : Int :=
  items.foldl (fun acc it =>
    match it.oid with
    | PyVal.vint n => max n acc
    | _ => acc) 0

/-- Modelled from the spec: `validate()` of the concrete item classes (not
under `src/`): "concrete variants extend this check and must call the base
check as part of their own", with a domain constraint such as non-empty
text. -/
def Item.validate_full (it : Item) : Option Err :=
  match Item.validate_base it with
  | Option.some e => Option.some e
  | Option.none =>
    if it.data = "" then Option.some (Err.validation "Entry text is empty")
    else Option.none

/-- The validation loop of `save_cheatsheet` (fileio.py lines 85-86): validate
each item in order, the first raised `ValidationError` propagating. -/
def validate_items : List Item → Option Err
  | [] => Option.none
  | it :: rest =>
    match Item.validate_full it with
    | Option.some e => Option.some e
    | Option.none => validate_items rest

/-- Embeds `save_cheatsheet` (src/sjb/cs/fileio.py lines 58-90) for a resolved target
file.  The store argument models the current contents of the target file (as
the parsed canonical document, `Option.none` when absent).  The validation
loop runs before `open(fname, 'w')`, so a validation raise leaves the file
untouched; on success the file is overwritten with the canonical form. -/
def save_cheatsheet (store : Option CanonicalList) (cs : ItemList) :
    Option CanonicalList × Option Err :=
  match validate_items cs.items with
  | Option.some e => (store, Option.some e)
  | Option.none => (Option.some (to_canonical_form cs), Option.none)

/-! ### Lemmas about the reload loop -/

lemma load_items_ok (recs : List ItemRecord) : ∀ l : ItemList,
    (∀ r ∈ recs, ∃ n : Int, r.oid = PyVal.vint n ∧ n ≠ 0) →
    (recs.map ItemRecord.oid).Nodup →
    (∀ r ∈ recs, r.oid ∉ l.oid_set) →
    ∃ l2, load_items l recs = Except.ok l2 ∧
      l2.version = l.version ∧ l2.modified = l.modified ∧
      l2.modified_date = l.modified_date ∧
      l2.items = l.items ++ recs.map Item.from_dict ∧
      l2.last_item_id = recs.foldl (fun acc r =>
        match r.oid with
        | PyVal.vint n => max n acc
        | _ => acc) l.last_item_id := by
  induction recs with
  | nil =>
    intro l _ _ _
    exact ⟨l, rfl, rfl, rfl, rfl, by simp, rfl⟩
  | cons r rest ih =>
    intro l hints hnodup hdisj
    obtain ⟨n, hoid, hn⟩ := hints r (by simp)
    have hfoid : (Item.from_dict r).oid = PyVal.vint n := by
      simpa [Item.from_dict] using hoid
    have hmr : (Item.from_dict r).oid ∉ l.oid_set := by
      simpa [Item.from_dict] using hdisj r (by simp)
    have hstep := add_item_load_ok 0 l (Item.from_dict r) n hfoid hn hmr
    have hload : load_items l (r :: rest) =
        load_items { l with last_item_id := max n l.last_item_id,
                            oid_set := insert (Item.from_dict r).oid l.oid_set,
                            items := l.items ++ [Item.from_dict r] } rest := by
      rw [load_items, hstep]
    have hnodup' : r.oid ∉ rest.map ItemRecord.oid ∧ (rest.map ItemRecord.oid).Nodup := by
      rw [List.map_cons, List.nodup_cons] at hnodup
      exact hnodup
    obtain ⟨l2, hok, hv, hm, hmd, hit, hlast⟩ :=
      ih { l with last_item_id := max n l.last_item_id,
                  oid_set := insert (Item.from_dict r).oid l.oid_set,
                  items := l.items ++ [Item.from_dict r] }
        (fun r' hr' => hints r' (List.mem_cons_of_mem _ hr'))
        hnodup'.2
        (by
          intro r' hr'
          simp only [Finset.mem_insert]
          push_neg
          refine ⟨?_, hdisj r' (List.mem_cons_of_mem _ hr')⟩
          intro hc
          have hc2 : r'.oid = r.oid := hc
          exact hnodup'.1 (List.mem_map.mpr ⟨r', hr', hc2⟩))
    refine ⟨l2, by rw [hload]; exact hok, hv, hm, hmd, ?_, ?_⟩
    · rw [hit]
      simp
    · rw [hlast]
      simp only [List.foldl_cons, hoid]

lemma fold_last_le (items : List Item) : ∀ (acc B : Int),
    (∀ it ∈ items, ∀ n : Int, it.oid = PyVal.vint n → n ≤ B) → acc ≤ B →
    items.foldl (fun acc it =>
      match it.oid with
      | PyVal.vint n => max n acc
      | _ => acc) acc ≤ B := by
  induction items with
  | nil =>
    intro acc B _ h
    simpa using h
  | cons a tl ih =>
    intro acc B hb hacc
    simp only [List.foldl_cons]
    apply ih
    · intro it hit
      exact hb it (List.mem_cons_of_mem _ hit)
    · cases hoid : a.oid with
      | vnone => simpa [hoid] using hacc
      | vint n =>
        simp only [hoid]
        exact max_le (hb a (by simp) n hoid) hacc
      | vstr s => simpa [hoid] using hacc

/-! ### The claims -/

/-- C1: `addItem(X, initialLoad=false)` on an item whose identity is unset
assigns `lastAssignedId + 1` as the identity, increments the counter to that
value, appends the item at the end, adds the new identity — not previously
present — to the identity set, and sets the modified flag.  The hypothesis
`ListInv l` is the list-state invariant, established for every reachable list
by `listInv_of_reachable`. -/
theorem C1_addItem_new (now : Nat) (l : ItemList) (x : Item)
    (hinv : ListInv l) (hoid : x.oid = PyVal.vnone) :
    (add_item now l x false).2.2 = Option.none ∧
    (add_item now l x false).2.1.oid = PyVal.vint (l.last_item_id + 1) ∧
    (add_item now l x false).1.last_item_id = l.last_item_id + 1 ∧
    (add_item now l x false).1.items = l.items ++ [(add_item now l x false).2.1] ∧
    (add_item now l x false).1.oid_set =
      insert (PyVal.vint (l.last_item_id + 1)) l.oid_set ∧
    PyVal.vint (l.last_item_id + 1) ∉ l.oid_set ∧
    (add_item now l x false).1.modified = true := by
  obtain ⟨h1, h2, h3, h4⟩ := hinv
  rw [add_item_new_ok now l x hoid]
  refine ⟨rfl, rfl, rfl, rfl, rfl, ?_, rfl⟩
  rw [h3]
  intro hc
  exact oid_notin_of_gt l h1 (l.last_item_id + 1) (by omega) (List.mem_toFinset.mp hc)

/-- Witness for C1 at a concrete input: the empty list and the fresh item
"buy milk". -/
theorem C1_addItem_new_witness :
    ListInv (ItemList.init Option.none Option.none) ∧
    (Item.mk PyVal.vnone "buy milk").oid = PyVal.vnone ∧
    (add_item 5 (ItemList.init Option.none Option.none)
      (Item.mk PyVal.vnone "buy milk") false).1.modified = true :=
  ⟨by decide, rfl,
   (C1_addItem_new 5 (ItemList.init Option.none Option.none)
     (Item.mk PyVal.vnone "buy milk") (by decide) rfl).2.2.2.2.2.2⟩

/-- C3: every list reachable from a fresh empty list by completed `add_item`
and `remove_item` operations satisfies the invariant: the identity set equals
exactly the set of identities of the stored items, no two stored items share
an identity, and `lastAssignedId` bounds every identity present. -/
theorem C3_reachable_invariant (l : ItemList) (h : Reachable l) :
    l.oid_set = (l.items.map Item.oid).toFinset ∧
    (l.items.map Item.oid).Nodup ∧
    (∀ it ∈ l.items, ∀ n : Int, it.oid = PyVal.vint n → n ≤ l.last_item_id) := by
  obtain ⟨h1, h2, h3, h4⟩ := listInv_of_reachable l h
  refine ⟨h3, h2, ?_⟩
  intro it hit n hn
  have hok := h1 it hit
  unfold oid_ok at hok
  rw [hn] at hok
  simp only [Bool.and_eq_true, decide_eq_true_eq] at hok
  exact hok.2

/-- Witness for C3 at a concrete reachable list: the fresh empty list. -/
theorem C3_reachable_invariant_witness :
    (ItemList.init Option.none Option.none).oid_set =
      ((ItemList.init Option.none Option.none).items.map Item.oid).toFinset ∧
    ((ItemList.init Option.none Option.none).items.map Item.oid).Nodup ∧
    (∀ it ∈ (ItemList.init Option.none Option.none).items, ∀ n : Int,
      it.oid = PyVal.vint n → n ≤ (ItemList.init Option.none Option.none).last_item_id) :=
  C3_reachable_invariant (ItemList.init Option.none Option.none)
    (Reachable.init Option.none Option.none)

/-- C4 counterexample: the claim says the base check raises for *any* zero or
negative integer identity, but `Item._validate` tests only truthiness and
`isinstance(int)`: the negative identity -1 is truthy and an integer, so
validation passes. -/
theorem C4_negative_id_counterexample :
    Item.validate_base (Item.mk (PyVal.vint (-1)) "entry") = Option.none := by
  decide

/-- C4 (amended): the base check of `validate()` raises a Validation error iff
the identity is not a set *nonzero* integer: it raises for an unset identity,
for a non-integer identity, and for zero, and never raises for a nonzero
integer — including negative ones, which the source accepts. -/
theorem C4_validate_base_characterization (it : Item) :
    Item.validate_base it = Option.none ↔
      ∃ n : Int, it.oid = PyVal.vint n ∧ n ≠ 0 := by
  unfold Item.validate_base
  cases hoid : it.oid with
  | vnone => simp [truthy, is_int, hoid]
  | vint n => by_cases hn : n = 0 <;> simp [truthy, is_int, hoid, hn]
  | vstr s => simp [truthy, is_int, hoid]

/-- C5 counterexample: at the non-null identity 0 the new-item call raises
ReadOnly, not IllegalState (0 is falsy, so the precondition check passes), and
the initial-load precondition fails with IllegalState although the identity is
non-null — both directions of the claim fail. -/
theorem C5_zero_oid_counterexample :
    (add_item 0 (ItemList.init Option.none Option.none)
      (Item.mk (PyVal.vint 0) "t") false).2.2 = Option.some Err.readOnly ∧
    (add_item 0 (ItemList.init Option.none Option.none)
      (Item.mk (PyVal.vint 0) "t") true).2.2 =
      Option.some (Err.illegalState "ItemList.add_item" "Old item missing oid!") := by
  constructor <;> rfl

/-- C5 (amended): the preconditions of `add_item` test Python *truthiness* of
the identity, not nullness: `addItem(X, false)` raises the new-item
IllegalState error iff `X.oid` is truthy (non-null and nonzero/nonempty), and
`addItem(X, true)` raises the missing-oid IllegalState error iff `X.oid` is
falsy (null, zero, or empty). -/
theorem C5_precondition_characterization (now : Nat) (l : ItemList) (x : Item) :
    ((add_item now l x false).2.2 =
        Option.some (Err.illegalState "ItemList.add_item" "New item has oid!") ↔
      truthy x.oid = true) ∧
    ((add_item now l x true).2.2 =
        Option.some (Err.illegalState "ItemList.add_item" "Old item missing oid!") ↔
      truthy x.oid = false) := by
  constructor
  · constructor
    · intro h
      by_contra hc
      rw [Bool.not_eq_true] at hc
      by_cases hnone : x.oid = PyVal.vnone
      · rw [add_item_new_ok now l x hnone] at h
        exact absurd h (by simp)
      · rw [add_item_new_readonly now l x hc hnone] at h
        dsimp only at h
        exact absurd h (by decide)
    · intro h
      rw [add_item_new_hasoid now l x h]
  · constructor
    · intro h
      by_contra hc
      rw [Bool.not_eq_false] at hc
      rcases hoid : x.oid with _ | n | s
      · rw [hoid] at hc
        exact absurd hc (by simp [truthy])
      · have hn : n ≠ 0 := by
          rw [hoid] at hc
          simpa [truthy] using hc
        by_cases hm : x.oid ∈ l.oid_set
        · rw [add_item_load_dup now l x hc hm] at h
          dsimp only at h
          exact absurd h (by decide)
        · rw [add_item_load_ok now l x n hoid hn hm] at h
          exact absurd h (by simp)
      · have hs : s ≠ "" := by
          rw [hoid] at hc
          simpa [truthy] using hc
        by_cases hm : x.oid ∈ l.oid_set
        · rw [add_item_load_dup now l x hc hm] at h
          dsimp only at h
          exact absurd h (by decide)
        · rw [add_item_load_nonint now l x s hoid hs hm] at h
          dsimp only at h
          exact absurd h (by decide)
    · intro h
      rw [add_item_load_missing now l x h]

/-- C8: `queryItems` leaves the list state (including the modified flag and
timestamp) unchanged, and returns, in original order (a sublist of the item
sequence), exactly the items the matcher accepts: all of them for the
always-true matcher, none for the always-false matcher. -/
theorem C8_queryItems (l : ItemList) (m : Item → Bool) :
    (query_items l m).1 = l ∧
    (query_items l m).2.Sublist l.items ∧
    (∀ it, it ∈ (query_items l m).2 ↔ it ∈ l.items ∧ m it = true) ∧
    (query_items l (fun _ => true)).2 = l.items ∧
    (query_items l (fun _ => false)).2 = [] := by
  refine ⟨rfl, List.filter_sublist _, ?_, by simp [query_items], by simp [query_items]⟩
  intro it
  simp [query_items, List.mem_filter]

/-- C10 counterexample: the claim says the failed zero-identity add leaves the
modified flag set, but `_mark_modified()` is coded *after* the oid assignment
that raises ReadOnly, so it is never reached: on the fresh empty list the
counter is incremented to 1 yet `modified` stays false. -/
theorem C10_zero_oid_counterexample :
    (add_item 0 (ItemList.init Option.none Option.none)
      (Item.mk (PyVal.vint 0) "t") false).2.2 = Option.some Err.readOnly ∧
    (add_item 0 (ItemList.init Option.none Option.none)
      (Item.mk (PyVal.vint 0) "t") false).1.last_item_id = 1 ∧
    (add_item 0 (ItemList.init Option.none Option.none)
      (Item.mk (PyVal.vint 0) "t") false).1.modified = false ∧
    (add_item 0 (ItemList.init Option.none Option.none)
      (Item.mk (PyVal.vint 0) "t") false).1.items = [] := by
  decide

/-- C10 (amended): `addItem(X, initialLoad=false)` with identity 0 passes the
IllegalState precondition check (0 is falsy), increments `lastAssignedId`, and
then raises ReadOnly from the identity assignment; since the modified marking
is coded after that assignment it is never reached, so the modified flag,
timestamp, item sequence, and identity set are unchanged and the item — whose
identity also stays 0 — is never appended. -/
theorem C10_zero_oid_behavior (now : Nat) (l : ItemList) (x : Item)
    (h : x.oid = PyVal.vint 0) :
    (add_item now l x false).2.2 = Option.some Err.readOnly ∧
    (add_item now l x false).1.last_item_id = l.last_item_id + 1 ∧
    (add_item now l x false).1.modified = l.modified ∧
    (add_item now l x false).1.modified_date = l.modified_date ∧
    (add_item now l x false).1.items = l.items ∧
    (add_item now l x false).1.oid_set = l.oid_set ∧
    (add_item now l x false).2.1 = x := by
  rw [add_item_new_readonly now l x (by simp [truthy, h]) (by simp [h])]
  exact ⟨rfl, rfl, rfl, rfl, rfl, rfl, rfl⟩

/-- Witness for C10's amended theorem at a concrete input. -/
theorem C10_zero_oid_behavior_witness :
    (Item.mk (PyVal.vint 0) "t").oid = PyVal.vint 0 ∧
    (add_item 3 (ItemList.init Option.none Option.none)
      (Item.mk (PyVal.vint 0) "t") false).2.2 = Option.some Err.readOnly :=
  ⟨rfl,
   (C10_zero_oid_behavior 3 (ItemList.init Option.none Option.none)
     (Item.mk (PyVal.vint 0) "t") rfl).1⟩

/-- A concrete reachable list obtained by adding one fresh item and then
removing it: `lastAssignedId` is 1 while no item remains, so the canonical
form records nothing from which to rebuild the counter. -/
def c2_list : ItemList :=
  (remove_item 7 (add_item 5 (ItemList.init Option.none Option.none)
    (Item.mk PyVal.vnone "milk") false).1 1).1

/-- C2 counterexample: `c2_list` is reachable with `lastAssignedId = 1`, yet
the serialize-then-reload round trip yields `lastAssignedId = 0` — more than
the modification metadata differs, refuting the claim as stated. -/
theorem C2_roundtrip_counterexample :
    Reachable c2_list ∧
    c2_list.last_item_id = 1 ∧
    (from_canonical_form (to_canonical_form c2_list)).toOption.map
      ItemList.last_item_id = Option.some 0 := by
  refine ⟨?_, by decide, by decide⟩
  exact Reachable.remove _ 7 1
    (Reachable.add _ 5 (Item.mk PyVal.vnone "milk") false
      (Reachable.init Option.none Option.none) (by decide))
    (by decide)

/-- C2 (amended): for every reachable list, serialize-then-reload succeeds and
reproduces the version, the item sequence (identities and domain fields
included), and the stored modification timestamp, and resets the modified
flag; `lastAssignedId`, however, is rebuilt from the stored items alone (the
canonical form does not record it), so the reloaded counter is
`rebuilt_last_id` — at most the original value, and strictly smaller when the
original counter exceeded every identity still present (e.g. after a
removal). -/
theorem C2_roundtrip_amended (l : ItemList) (h : Reachable l) :
    ∃ l2 : ItemList, from_canonical_form (to_canonical_form l) = Except.ok l2 ∧
      l2.version = l.version ∧
      l2.items = l.items ∧
      l2.modified_date = l.modified_date ∧
      l2.modified = false ∧
      l2.last_item_id = rebuilt_last_id l.items ∧
      l2.last_item_id ≤ l.last_item_id := by
  obtain ⟨h1, h2, h3, h4⟩ := listInv_of_reachable l h
  have hoids : ∀ it ∈ l.items, ∃ n : Int, it.oid = PyVal.vint n ∧ n ≠ 0 ∧
      n ≤ l.last_item_id := by
    intro it hit
    have hok := h1 it hit
    unfold oid_ok at hok
    cases hoid : it.oid with
    | vnone => rw [hoid] at hok; exact absurd hok (by simp)
    | vint n =>
      rw [hoid] at hok
      simp only [Bool.and_eq_true, decide_eq_true_eq] at hok
      exact ⟨n, rfl, hok.1, hok.2⟩
    | vstr s => rw [hoid] at hok; exact absurd hok (by simp)
  have hrecnodup : ((l.items.map Item.to_dict).map ItemRecord.oid).Nodup := by
    rw [List.map_map]
    exact h2
  obtain ⟨l2, hok, hv, hm, hmd, hit, hlast⟩ :=
    load_items_ok (l.items.map Item.to_dict)
      (ItemList.init l.version l.modified_date)
      (by
        intro r hr
        obtain ⟨it, hitmem, hreq⟩ := List.mem_map.mp hr
        obtain ⟨n, hn, hn0, _⟩ := hoids it hitmem
        exact ⟨n, by rw [← hreq]; exact hn, hn0⟩)
      hrecnodup
      (by
        intro r _
        simp [ItemList.init])
  refine ⟨l2, hok, hv, ?_, hmd, hm, ?_, ?_⟩
  · rw [hit]
    simp only [ItemList.init, List.nil_append, List.map_map]
    have : Item.from_dict ∘ Item.to_dict = fun it => it := by
      funext it
      rfl
    rw [this, List.map_id']
  · rw [hlast]
    show (l.items.map Item.to_dict).foldl _ (0 : Int) = rebuilt_last_id l.items
    rw [List.foldl_map, rebuilt_last_id]
    rfl
  · rw [hlast]
    show (l.items.map Item.to_dict).foldl _ (0 : Int) ≤ l.last_item_id
    rw [List.foldl_map]
    exact fold_last_le l.items 0 l.last_item_id
      (fun it hit n hn => by
        obtain ⟨n2, hn2, _, hle⟩ := hoids it hit
        rw [hn] at hn2
        cases PyVal.vint.inj hn2.symm
        exact hle)
      h4

/-- Witness for C2's amended theorem at a concrete reachable list. -/
theorem C2_roundtrip_amended_witness :
    Reachable (ItemList.init (Option.some "0.1") Option.none) ∧
    ∃ l2 : ItemList,
      from_canonical_form (to_canonical_form
        (ItemList.init (Option.some "0.1") Option.none)) = Except.ok l2 ∧
      l2.version = (ItemList.init (Option.some "0.1") Option.none).version ∧
      l2.items = (ItemList.init (Option.some "0.1") Option.none).items ∧
      l2.modified_date = (ItemList.init (Option.some "0.1") Option.none).modified_date ∧
      l2.modified = false ∧
      l2.last_item_id = rebuilt_last_id (ItemList.init (Option.some "0.1") Option.none).items ∧
      l2.last_item_id ≤ (ItemList.init (Option.some "0.1") Option.none).last_item_id :=
  ⟨Reachable.init (Option.some "0.1") Option.none,
   C2_roundtrip_amended (ItemList.init (Option.some "0.1") Option.none)
     (Reachable.init (Option.some "0.1") Option.none)⟩

/-- C6: reloading an item carrying a (nonzero integer) identity not already
present appends it, adds exactly that identity to the identity set, raises the
counter to the maximum of its old value and the identity, and leaves the
modified flag and timestamp untouched; reloading a duplicate identity raises
IllegalState and leaves the list entirely unchanged. -/
theorem C6_addItem_initialLoad (now : Nat) (l : ItemList) (x : Item) (n : Int)
    (hoid : x.oid = PyVal.vint n) (hn : n ≠ 0) :
    (x.oid ∉ l.oid_set →
      (add_item now l x true).2.2 = Option.none ∧
      (add_item now l x true).1.items = l.items ++ [x] ∧
      (add_item now l x true).1.oid_set = insert x.oid l.oid_set ∧
      (add_item now l x true).1.last_item_id = max n l.last_item_id ∧
      (add_item now l x true).1.modified = l.modified ∧
      (add_item now l x true).1.modified_date = l.modified_date) ∧
    (x.oid ∈ l.oid_set →
      add_item now l x true =
        (l, x, Option.some (Err.illegalState "ItemList.add_item" "Duplicate item ID"))) := by
  constructor
  · intro hm
    rw [add_item_load_ok now l x n hoid hn hm]
    exact ⟨rfl, rfl, rfl, rfl, rfl, rfl⟩
  · intro hm
    exact add_item_load_dup now l x (by simp [truthy, hoid, hn]) hm

/-- Witness for C6 at a concrete input: reloading identity 2 into the empty
list. -/
theorem C6_addItem_initialLoad_witness :
    (Item.mk (PyVal.vint 2) "a").oid = PyVal.vint 2 ∧ (2 : Int) ≠ 0 ∧
    (add_item 9 (ItemList.init Option.none Option.none)
      (Item.mk (PyVal.vint 2) "a") true).1.last_item_id =
      max 2 (ItemList.init Option.none Option.none).last_item_id :=
  ⟨rfl, by decide,
   ((C6_addItem_initialLoad 9 (ItemList.init Option.none Option.none)
       (Item.mk (PyVal.vint 2) "a") 2 rfl (by decide)).1 (by decide)).2.2.2.1⟩

/-- C7: `removeItem(id)` on a present identity returns the matching item,
shrinks the item count by exactly one, removes the identity from the identity
set, and marks the list modified; on an absent identity it raises InvalidID
and leaves the list entirely unchanged.  `ListInv l` is the list-state
invariant, established for every reachable list by `listInv_of_reachable`. -/
theorem C7_removeItem (now : Nat) (l : ItemList) (oid : Int) (hinv : ListInv l) :
    ((∃ it ∈ l.items, it.oid = PyVal.vint oid) →
      ∃ it, (remove_item now l oid).2.1 = Option.some it ∧ it ∈ l.items ∧
        it.oid = PyVal.vint oid ∧
        (remove_item now l oid).2.2 = Option.none ∧
        (remove_item now l oid).1.items.length + 1 = l.items.length ∧
        (remove_item now l oid).1.oid_set = l.oid_set.erase (PyVal.vint oid) ∧
        (remove_item now l oid).1.modified = true) ∧
    ((∀ it ∈ l.items, it.oid ≠ PyVal.vint oid) →
      remove_item now l oid =
        (l, Option.none,
         Option.some (Err.invalidID "ItemList.get_item_index"
           "Item with given oid not found!"))) := by
  obtain ⟨h1, h2, h3, h4⟩ := hinv
  constructor
  · intro hpresent
    obtain ⟨x0, hx0mem, hx0oid⟩ := hpresent
    cases hex : extract_first l.items oid with
    | none =>
      exact absurd hx0oid ((extract_first_eq_none l.items oid).mp hex x0 hx0mem)
    | some p =>
      obtain ⟨x, rest⟩ := p
      obtain ⟨pre, suf, hsplit, hrest, hxoid, _⟩ :=
        extract_first_eq_some l.items oid x rest hex
      have hxmem : x ∈ l.items := by rw [hsplit]; simp
      have hxset : x.oid ∈ l.oid_set := by
        rw [h3]
        exact List.mem_toFinset.mpr (List.mem_map.mpr ⟨x, hxmem, rfl⟩)
      have hcalc : remove_item now l oid =
          ({ version := l.version, modified := true, modified_date := Option.some now,
             items := rest, last_item_id := l.last_item_id,
             oid_set := l.oid_set.erase x.oid },
           Option.some x, Option.none) := by
        unfold remove_item
        rw [hex]
        simp only [mark_modified]
        rw [if_pos hxset]
      rw [hcalc]
      refine ⟨x, rfl, hxmem, hxoid, rfl, ?_, ?_, rfl⟩
      · show rest.length + 1 = l.items.length
        rw [hsplit, hrest]
        simp
        omega
      · show l.oid_set.erase x.oid = l.oid_set.erase (PyVal.vint oid)
        rw [hxoid]
  · intro habsent
    exact remove_item_absent now l oid habsent

/-- A concrete one-element list for the C7 witness. -/
def c7_list : ItemList :=
  { version := Option.none, modified := false, modified_date := Option.none,
    items := [Item.mk (PyVal.vint 1) "a"], last_item_id := 1,
    oid_set := {PyVal.vint 1} }

/-- Witness for C7 at a concrete input: removing the present identity 1. -/
theorem C7_removeItem_witness :
    ListInv c7_list ∧
    (∃ it ∈ c7_list.items, it.oid = PyVal.vint 1) ∧
    ∃ it, (remove_item 3 c7_list 1).2.1 = Option.some it ∧ it ∈ c7_list.items ∧
      it.oid = PyVal.vint 1 ∧
      (remove_item 3 c7_list 1).2.2 = Option.none ∧
      (remove_item 3 c7_list 1).1.items.length + 1 = c7_list.items.length ∧
      (remove_item 3 c7_list 1).1.oid_set = c7_list.oid_set.erase (PyVal.vint 1) ∧
      (remove_item 3 c7_list 1).1.modified = true :=
  ⟨by decide, by decide,
   (C7_removeItem 3 c7_list 1 (by decide)).1 (by decide)⟩

/-- C9: `save_cheatsheet` validates every item before the target file is
opened for writing: when some item's validation raises, the call returns that
error with the stored contents exactly as before (no truncation or partial
write), and when the call completes, every item validated and the store holds
the canonical form of the list. -/
theorem C9_save_all_or_nothing (store : Option CanonicalList) (cs : ItemList) :
    (∀ e : Err, validate_items cs.items = Option.some e →
      save_cheatsheet store cs = (store, Option.some e)) ∧
    ((save_cheatsheet store cs).2 = Option.none →
      validate_items cs.items = Option.none ∧
      (save_cheatsheet store cs).1 = Option.some (to_canonical_form cs)) := by
  constructor
  · intro e he
    unfold save_cheatsheet
    rw [he]
  · intro hok
    cases hv : validate_items cs.items with
    | none =>
      refine ⟨rfl, ?_⟩
      unfold save_cheatsheet
      rw [hv]
    | some e =>
      unfold save_cheatsheet at hok
      rw [hv] at hok
      exact absurd hok (by simp)

/-- A list holding an invalid (identity-less) item, for the C9 witness. -/
def c9_list : ItemList :=
  { version := Option.none, modified := true, modified_date := Option.none,
    items := [Item.mk PyVal.vnone "x"], last_item_id := 0, oid_set := ∅ }

/-- The prior contents of the save target, for the C9 witness. -/
def c9_store : Option CanonicalList :=
  Option.some { version := Option.some "0.1", modified_date := Option.none, items := [] }

/-- Witness for C9 at a concrete input: saving a list whose item fails
validation leaves the stored contents untouched. -/
theorem C9_save_all_or_nothing_witness :
    validate_items c9_list.items =
      Option.some (Err.validation "item ID not set or set to non-integer") ∧
    save_cheatsheet c9_store c9_list =
      (c9_store, Option.some (Err.validation "item ID not set or set to non-integer")) :=
  ⟨by decide,
   (C9_save_all_or_nothing c9_store c9_list).1
     (Err.validation "item ID not set or set to non-integer") (by decide)⟩
